import Mathlib

/-!
# Verification of the spreadsheet server-data cache specification

This development embeds the server-data request cache of the repository
(`ServerData` / `Request` / `BatchEndpoint` with its access modes `get`,
`fetch` and `batch.get`) together with the pivot action helpers of
`addons/spreadsheet/static/src/pivot/pivot_actions.js`, and proves or
refutes the specification's claims about them.

The server-data core (`server_data.js`) is not present under `src/`; only
its test suite (`server_data.test.js`) is.  The model below is therefore
modelled from the spec, with the observable behaviour (RPC step sequences,
notification ordering, cache outcomes) pinned by the repository's tests.
Where the spec's narrative and the tests disagree, the tests — being
repository code — win; each such divergence is recorded in the theorems.
-/

namespace ServerDataModel

/-- JSON-like values used as RPC arguments and results (the tests use
integers, strings and (nested) lists such as `[5]` or `[[4, 5, 6]]`). -/
inductive Val
  | int (n : Int)
  | str (s : String)
  | list (l : List Val)

mutual

/-- Decidable structural equality on values. -/
def Val.decEq : (a b : Val) → Decidable (a = b)
  | Val.int a, Val.int b =>
    if h : a = b then isTrue (by rw [h])
    else isFalse (fun hh => by cases hh; exact h rfl)
  | Val.str a, Val.str b =>
    if h : a = b then isTrue (by rw [h])
    else isFalse (fun hh => by cases hh; exact h rfl)
  | Val.list a, Val.list b =>
    match Val.decEqList a b with
    | isTrue h => isTrue (by rw [h])
    | isFalse h => isFalse (fun hh => by cases hh; exact h rfl)
  | Val.int _, Val.str _ => isFalse (fun h => Val.noConfusion h)
  | Val.int _, Val.list _ => isFalse (fun h => Val.noConfusion h)
  | Val.str _, Val.int _ => isFalse (fun h => Val.noConfusion h)
  | Val.str _, Val.list _ => isFalse (fun h => Val.noConfusion h)
  | Val.list _, Val.int _ => isFalse (fun h => Val.noConfusion h)
  | Val.list _, Val.str _ => isFalse (fun h => Val.noConfusion h)

/-- Decidable structural equality on lists of values. -/
def Val.decEqList : (a b : List Val) → Decidable (a = b)
  | [], [] => isTrue rfl
  | [], _ :: _ => isFalse (fun h => List.noConfusion h)
  | _ :: _, [] => isFalse (fun h => List.noConfusion h)
  | a :: as, b :: bs =>
    match Val.decEq a b with
    | isFalse h => isFalse (fun hh => by cases hh; exact h rfl)
    | isTrue h =>
      match Val.decEqList as bs with
      | isTrue h2 => isTrue (by rw [h, h2])
      | isFalse h2 => isFalse (fun hh => by cases hh; exact h2 rfl)

end

instance : DecidableEq Val := Val.decEq

instance : DecidableEq (Except Val Val) := fun a b =>
  match a, b with
  | Except.ok x, Except.ok y =>
    if h : x = y then isTrue (by rw [h])
    else isFalse (fun hh => by cases hh; exact h rfl)
  | Except.error x, Except.error y =>
    if h : x = y then isTrue (by rw [h])
    else isFalse (fun hh => by cases hh; exact h rfl)
  | Except.ok _, Except.error _ => isFalse (fun hh => Except.noConfusion hh)
  | Except.error _, Except.ok _ => isFalse (fun hh => Except.noConfusion hh)

/-- The ordered argument list of a request. -/
abbrev Args := List Val

/-- Fingerprint of a request: the `(model, method, args)` triple.
Modelled from the spec: `Request.fingerprint()` is the canonical
serialization of the triple with structural equality. -/
abbrev Fp := String × String × Args

/-- A Slot's state: `pending`, `resolved` with a value, or `rejected`
with an error. -/
inductive SlotState
  | pending
  | resolved (v : Val)
  | rejected (e : Val)
deriving DecidableEq

/-- One entry of the observable step log, mirroring `expect.step` in the
tests: an RPC invocation `model/method` (with its argument list) or the
`whenDataStartLoading` notification (`"data-fetching-notification"`). -/
inductive StepItem
  | rpc (m f : String) (args : Args)
  | notif
deriving DecidableEq

/-- One entry of the batch-endpoint callback log: `successCallback` or
`failureCallback` invoked for the request with the given batched key. -/
inductive Cb
  | success (k : Val)
  | failure (k : Val)
deriving DecidableEq

/-- The mocked RPC caller: `call(model, method, args)` either returns a
value or throws an error (the tests' `orm.call`). -/
abbrev Orm := String → String → Args → Except Val Val

/-- Modelled from the spec: the whole `ServerData` state — the Slot cache
shared by `get`/`batch.get`, the promise cache of `fetch`, the per-endpoint
batch accumulators, the queue of not-yet-delivered single-RPC outcomes, the
observable step log, the callback log, and the loading-episode tracker
(count of in-flight tracked RPC operations).  `epTrace`, `singleRpcFps` and
`fetchRpcFps` are ghost history fields: they record episode-tracker events
and which fingerprints each access path issued RPCs for, and influence no
behaviour. -/
structure SDState where
  cache : List (Fp × SlotState) := []
  fetchCache : List (Fp × Except Val Val) := []
  acc : List ((String × String) × List Val) := []
  micro : List (Fp × Except Val Val) := []
  steps : List StepItem := []
  cbLog : List Cb := []
  pendingOps : Nat := 0
  epTrace : List Bool := []
  singleRpcFps : List Fp := []
  fetchRpcFps : List Fp := []


/-- Association-list lookup keyed by fingerprint. -/
def lookupFp {α : Type} : List (Fp × α) → Fp → Option α
  | [], _ => none
  | (k, v) :: t, fp => if k = fp then some v else lookupFp t fp

/-- Terminal transition of a Slot: set the Slot of `fp` to `st` if it is
`pending`; a Slot that is already terminal is left unchanged (resolve and
reject are idempotent no-ops on terminal Slots, per the spec's §4.2). -/
def terminate : List (Fp × SlotState) → Fp → SlotState → List (Fp × SlotState)
  | [], _, _ => []
  | (k, v) :: t, fp, st =>
    if k = fp then (k, if v = SlotState.pending then st else v) :: t
    else (k, v) :: terminate t fp st

/-- Append a batched key to the accumulator of endpoint `ep`, creating the
accumulator (and thereby scheduling its flush for the next tick) if absent. -/
def addAcc : List ((String × String) × List Val) → String × String → Val →
    List ((String × String) × List Val)
  | [], ep, k => [(ep, [k])]
  | (e, ks) :: t, ep, k =>
    if e = ep then (e, ks ++ [k]) :: t else (e, ks) :: addAcc t ep k

/-- Loading-episode tracker, start of a tracked RPC operation: when no
operation is in flight, log the `whenDataStartLoading` notification; always
increment the in-flight count.  The tests pin this placement: the
notification step always follows the RPC step of the operation that
triggered it, and plain `fetch` never notifies. -/
def trackOp (s : SDState) : SDState :=
  { s with
    steps := if s.pendingOps = 0 then s.steps ++ [StepItem.notif] else s.steps
    pendingOps := s.pendingOps + 1
    epTrace := s.epTrace ++ [true] }

/-- Loading-episode tracker, end of a tracked RPC operation. -/
def settleOp (s : SDState) : SDState :=
  { s with pendingOps := s.pendingOps - 1, epTrace := s.epTrace ++ [false] }

/-- Write an RPC outcome into the Slot of `fp` (resolve on success, reject
on failure); no-op if the Slot is already terminal. -/
def resolveFp (s : SDState) (fp : Fp) (out : Except Val Val) : SDState :=
  { s with
    cache := terminate s.cache fp
      (match out with
       | Except.ok v => SlotState.resolved v
       | Except.error e => SlotState.rejected e) }

/-- Deliver one queued single-RPC outcome and settle its tracked operation. -/
def applySettle (s : SDState) (item : Fp × Except Val Val) : SDState :=
  settleOp (resolveFp s item.1 item.2)

/-- Deliver all queued single-RPC outcomes, in FIFO order. -/
def drainMicro (s : SDState) : SDState :=
  s.micro.foldl applySettle { s with micro := [] }

/-- The observable result of one access. -/
inductive Outcome
  | value (v : Val)
  | notReady
  | error (e : Val)
  | tick
deriving DecidableEq

/-- Modelled from the spec: synchronous `ServerData.get(model, method, args)`.
On a cached Slot it returns the value, re-raises the stored error, or
raises `NotReady` (`LoadingDataError`); on a miss it inserts a `pending`
Slot, issues the RPC (fire-and-forget: the outcome is queued and lands in
the cache at the next delivery point), notifies the episode tracker, and
raises `NotReady`.  Per the tests, this path is independent of the `fetch`
promise cache. -/
def doGet (orm : Orm) (s : SDState) (m f : String) (args : Args) :
    SDState × Outcome :=
  let fp : Fp := (m, f, args)
  match lookupFp s.cache fp with
  | some (SlotState.resolved v) => (s, Outcome.value v)
  | some (SlotState.rejected e) => (s, Outcome.error e)
  | some SlotState.pending => (s, Outcome.notReady)
  | none =>
    let out := orm m f args
    let s := { s with
      cache := s.cache ++ [(fp, SlotState.pending)]
      steps := s.steps ++ [StepItem.rpc m f args]
      micro := s.micro ++ [(fp, out)]
      singleRpcFps := s.singleRpcFps ++ [fp] }
    (trackOp s, Outcome.notReady)

/-- Modelled from the spec: `ServerData.fetch(model, method, args)`.
Deduplicates through its own promise cache: a second fetch for the same
fingerprint attaches to the first one's promise and issues no RPC.  Per the
tests ("it loads the data independently"), this cache is separate from the
Slot cache of `get`/`batch.get`, and `fetch` does not notify the loading
tracker. -/
def doFetch (orm : Orm) (s : SDState) (m f : String) (args : Args) :
    SDState × Except Val Val :=
  let fp : Fp := (m, f, args)
  match lookupFp s.fetchCache fp with
  | some out => (s, out)
  | none =>
    let out := orm m f args
    ({ s with
        steps := s.steps ++ [StepItem.rpc m f args]
        fetchCache := s.fetchCache ++ [(fp, out)]
        fetchRpcFps := s.fetchRpcFps ++ [fp] }, out)

/-- Modelled from the spec: `ServerData.batch.get(model, method, key)`,
i.e. `BatchEndpoint.get` on the `(model, method)` endpoint with
`args = [key]`.  Shares the Slot cache with synchronous `get`; on a miss it
inserts a `pending` Slot, appends the key to the endpoint's accumulator
(scheduling a flush for the next tick), and raises `NotReady`. -/
def doBatchGet (s : SDState) (m f : String) (k : Val) : SDState × Outcome :=
  let fp : Fp := (m, f, [k])
  match lookupFp s.cache fp with
  | some (SlotState.resolved v) => (s, Outcome.value v)
  | some (SlotState.rejected e) => (s, Outcome.error e)
  | some SlotState.pending => (s, Outcome.notReady)
  | none =>
    ({ s with
        cache := s.cache ++ [(fp, SlotState.pending)]
        acc := addAcc s.acc (m, f) k }, Outcome.notReady)

/-- Positional split of a batch RPC result into per-request results. -/
def splitResult : Val → List Val
  | Val.list l => l
  | _ => []

/-- Modelled from the spec: one step of the batch fallback-retry loop —
an individual RPC `call(model, method, [[key]])` whose single-element
outcome resolves or rejects that request's Slot and triggers
`successCallback` or `failureCallback` respectively. -/
def retryOne (orm : Orm) (m f : String) (s : SDState) (k : Val) : SDState :=
  let fp : Fp := (m, f, [k])
  let out := orm m f [Val.list [k]]
  let s := { s with steps := s.steps ++ [StepItem.rpc m f [Val.list [k]]] }
  match out with
  | Except.ok v =>
    match (splitResult v).head? with
    | some r =>
      let s := resolveFp s fp (Except.ok r)
      { s with cbLog := s.cbLog ++ [Cb.success k] }
    | none => s
  | Except.error e =>
    let s := resolveFp s fp (Except.error e)
    { s with cbLog := s.cbLog ++ [Cb.failure k] }

/-- Modelled from the spec: the flush protocol of one `BatchEndpoint` —
one combined RPC `call(model, method, [keys])` over the snapshot of the
accumulator; on success the positionally aligned results resolve the
individual Slots (with `successCallback` per request, in accumulator
order); on failure every request of the snapshot is retried sequentially,
in accumulator order, by `retryOne`. -/
def flushOne (orm : Orm) (s : SDState) (ep : (String × String) × List Val) :
    SDState :=
  let m := ep.1.1
  let f := ep.1.2
  let keys := ep.2
  let out := orm m f [Val.list keys]
  let s := { s with steps := s.steps ++ [StepItem.rpc m f [Val.list keys]] }
  let s := trackOp s
  let s :=
    match out with
    | Except.ok v =>
      (keys.zip (splitResult v)).foldl
        (fun s kr =>
          let s := resolveFp s (m, f, [kr.1]) (Except.ok kr.2)
          { s with cbLog := s.cbLog ++ [Cb.success kr.1] }) s
    | Except.error _ => keys.foldl (retryOne orm m f) s
  settleOp s

/-- One host-scheduler tick (the tests' `animationFrame`): deliver queued
single-RPC outcomes, snapshot and clear all batch accumulators, and run
each scheduled flush.  Requests enqueued after this point join the next
batch. -/
def doAnimationFrame (orm : Orm) (s : SDState) : SDState :=
  let s := drainMicro s
  let eps := s.acc
  let s := { s with acc := [] }
  eps.foldl (flushOne orm) s

/-- One program action, as the tests drive the façade: a synchronous
`get`, an awaited `fetch`, a `batch.get`, or an `animationFrame` tick. -/
inductive Action
  | get (m f : String) (args : Args)
  | fetch (m f : String) (args : Args)
  | batchGet (m f : String) (k : Val)
  | animationFrame
deriving DecidableEq

/-- Execute one action.  Awaiting a `fetch` yields to the scheduler, so
queued single-RPC outcomes are delivered after the fetch call. -/
def stepA (orm : Orm) (s : SDState) : Action → SDState × Outcome
  | Action.get m f args => doGet orm s m f args
  | Action.fetch m f args =>
    let p := doFetch orm s m f args
    (drainMicro p.1,
      match p.2 with
      | Except.ok v => Outcome.value v
      | Except.error e => Outcome.error e)
  | Action.batchGet m f k => doBatchGet s m f k
  | Action.animationFrame => (doAnimationFrame orm s, Outcome.tick)

/-- Run a program from a given state, collecting per-action outcomes. -/
def runFrom (orm : Orm) : SDState → List Action → SDState × List Outcome
  | s, [] => (s, [])
  | s, a :: p =>
    let q := stepA orm s a
    let r := runFrom orm q.1 p
    (r.1, q.2 :: r.2)

/-- The initial (empty) ServerData state. -/
def initState : SDState := {}

/-- Run a program from the initial state. -/
def run (orm : Orm) (p : List Action) : SDState × List Outcome :=
  runFrom orm initState p

/-- The tests' standard RPC mock: return `args[0]`. -/
def ormEcho : Orm := fun _ _ args =>
  match args with
  | a :: _ => Except.ok a
  | [] => Except.error (Val.str "no args")

/-- The tests' failing RPC mock: always throw. -/
def ormErr : Orm := fun _ _ _ =>
  Except.error (Val.str "error while fetching data")

/-- The tests' partially failing RPC mock: throw iff `args[0]` contains
`5`, otherwise return `args[0]`. -/
def ormBatch5 : Orm := fun _ _ args =>
  match args with
  | Val.list l :: _ =>
    if l.contains (Val.int 5) then Except.error (Val.str "error while fetching data")
    else Except.ok (Val.list l)
  | a :: _ => Except.ok a
  | [] => Except.error (Val.str "no args")

/-- Number of `whenDataStartLoading` notifications in a step log. -/
def countNotif : List StepItem → Nat
  | [] => 0
  | StepItem.notif :: t => countNotif t + 1
  | StepItem.rpc _ _ _ :: t => countNotif t

/-- Number of RPC steps in a log whose `(model, method, args)` triple is
exactly the given fingerprint. -/
def countRpcFp (fp : Fp) : List StepItem → Nat
  | [] => 0
  | StepItem.rpc m f a :: t => (if (m, f, a) = fp then 1 else 0) + countRpcFp fp t
  | StepItem.notif :: t => countRpcFp fp t

/-- Number of occurrences of a fingerprint in a ghost RPC-issue list. -/
def countFp (fp : Fp) : List Fp → Nat
  | [] => 0
  | x :: t => (if x = fp then 1 else 0) + countFp fp t

/-- Number of Slots currently in the `pending` state. -/
def pendingCount : List (Fp × SlotState) → Nat
  | [] => 0
  | (_, SlotState.pending) :: t => pendingCount t + 1
  | (_, _) :: t => pendingCount t

/-- Scan of an episode-tracker event trace (`true` = a tracked RPC
operation starts, `false` = one settles), carrying the in-flight count and
the number of episode starts (operations starting while the count is 0). -/
def epScan : Nat → Nat → List Bool → Nat × Nat
  | c, n, [] => (c, n)
  | c, n, true :: t => epScan (c + 1) (if c = 0 then n + 1 else n) t
  | c, n, false :: t => epScan (c - 1) n t

/-- In-flight tracked operations at the end of a tracker trace. -/
def bal (tr : List Bool) : Nat := (epScan 0 0 tr).1

/-- Number of loading episodes begun along a tracker trace: tracked
operations that started while none were in flight. -/
def upCross (tr : List Bool) : Nat := (epScan 0 0 tr).2

/-- The episode-tracker invariant: the number of notifications logged so
far equals the number of episode starts recorded by the tracker trace, and
the in-flight counter equals the trace's balance. -/
def EpInv (s : SDState) : Prop :=
  countNotif s.steps = upCross s.epTrace ∧ s.pendingOps = bal s.epTrace

/-- The invariant of one access path: its ghost RPC-issue list contains a
fingerprint only if that fingerprint has an entry in the path's cache, and
never more than once.  Since a cache entry is created by the first RPC and
is never removed, each path issues at most one RPC per fingerprint. -/
def PathInv {α : Type} (r : List Fp) (c : List (Fp × α)) : Prop :=
  ∀ fp, (lookupFp c fp = none → countFp fp r = 0) ∧ countFp fp r ≤ 1

/-- The two-path RPC-uniqueness invariant of the whole state. -/
def RpcInv (s : SDState) : Prop :=
  PathInv s.singleRpcFps s.cache ∧ PathInv s.fetchRpcFps s.fetchCache

/-- Per-Slot state ordering: the observable lifecycle `absent →
pending → terminal`, with terminal states immutable.  `slotLe a b` holds
iff a Slot observed as `a` can later be observed as `b`. -/
def slotLe : Option SlotState → Option SlotState → Prop
  | none, _ => True
  | some SlotState.pending, some _ => True
  | some (SlotState.resolved v), some (SlotState.resolved w) => v = w
  | some (SlotState.rejected e), some (SlotState.rejected f) => e = f
  | _, _ => False

/-- Slot-wise lifecycle ordering of whole caches. -/
def cacheLe (c₁ c₂ : List (Fp × SlotState)) : Prop :=
  ∀ fp, slotLe (lookupFp c₁ fp) (lookupFp c₂ fp)

end ServerDataModel

namespace PivotActions

open ServerDataModel (Val)

/-- An evaluated cell as `getEvaluatedCell` returns it: its `type` tag
(`"empty"`, `"error"`, …) and its value. -/
structure EvaluatedCell where
  etype : String
  value : Val

/-- A formula cell as `getCorrespondingFormulaCell` returns it:
whether it is a formula, and its compiled formula's tokens. -/
structure Cell where
  isFormula : Bool
  tokens : List String

/-- The result of `getPivotDomainArgsFromPosition`: the pivot domain args
(possibly undefined) and whether the position is a header. -/
structure PivotInfo where
  domainArgs : Option (List Val)
  isHeader : Bool

/-- The spreadsheet environment consumed by the pivot actions, as the
bundle of getters `pivot_actions.js` reads from `env.model.getters`.
`getNumberOfPivotFormulas` (imported from `pivot_helpers.js`, which is not
under `src/`) and `assertIsValidError` (the data source's
`assertIsValid({ throwOnError: false })`) are abstracted as opaque getter
fields of the environment. -/
structure Env where
  getCorrespondingFormulaCell : Nat → Option Cell
  getEvaluatedCell : Nat → EvaluatedCell
  getPivotDomainArgsFromPosition : Nat → Option PivotInfo
  getPivotIdFromPosition : Nat → String
  isExistingPivot : String → Bool
  assertIsValidError : String → Option String
  getFiltersMatchingPivotArgs : String → Option (List Val) → List String
  getNumberOfPivotFormulas : List String → Nat

/-- `SEE_RECORDS_PIVOT_VISIBLE(position, env)` from `pivot_actions.js`:
the pivot at the position must exist, its data source must have no loading
error, the evaluated cell must be neither empty nor an error nor the empty
string, the domain args must be defined, and the cell must be a formula
containing exactly one pivot formula. -/
def SEE_RECORDS_PIVOT_VISIBLE (position : Nat) (env : Env) : Bool :=
  let cell := env.getCorrespondingFormulaCell position
  let evaluatedCell := env.getEvaluatedCell position
  let argsDomain := (env.getPivotDomainArgsFromPosition position).bind
    (fun i => i.domainArgs)
  let pivotId := env.getPivotIdFromPosition position
  if !(env.isExistingPivot pivotId) then false
  else
    let loadingError := env.assertIsValidError pivotId
    loadingError.isNone &&
    !(evaluatedCell.etype = "empty") &&
    !(evaluatedCell.etype = "error") &&
    !(evaluatedCell.value = Val.str "") &&
    argsDomain.isSome &&
    (match cell with
     | some c => c.isFormula && env.getNumberOfPivotFormulas c.tokens = 1
     | none => false)

/-- `SET_FILTER_MATCHING_CONDITION(position, env)` from
`pivot_actions.js`: false when `SEE_RECORDS_PIVOT_VISIBLE` is false or the
pivot domain args are undefined; otherwise true iff the position is a
header and some filter matches the pivot's domain args. -/
def SET_FILTER_MATCHING_CONDITION (position : Nat) (env : Env) : Bool :=
  if !(SEE_RECORDS_PIVOT_VISIBLE position env) then false
  else
    let pivotId := env.getPivotIdFromPosition position
    let pivotInfo := env.getPivotDomainArgsFromPosition position
    match pivotInfo with
    | none => false
    | some info =>
      match info.domainArgs with
      | none => false
      | some _ =>
        let matchingFilters := env.getFiltersMatchingPivotArgs pivotId info.domainArgs
        info.isHeader && matchingFilters.length > 0

/-- A concrete environment on which all conditions of
`SET_FILTER_MATCHING_CONDITION` hold at position 0. -/
def envAllGood : Env :=
  { getCorrespondingFormulaCell := fun _ =>
      some { isFormula := true, tokens := ["ODOO.PIVOT"] }
    getEvaluatedCell := fun _ => { etype := "number", value := Val.int 3 }
    getPivotDomainArgsFromPosition := fun _ =>
      some { domainArgs := some [Val.str "country_id", Val.int 1],
             isHeader := true }
    getPivotIdFromPosition := fun _ => "1"
    isExistingPivot := fun _ => true
    assertIsValidError := fun _ => none
    getFiltersMatchingPivotArgs := fun _ _ => ["myFilter"]
    getNumberOfPivotFormulas := fun _ => 1 }

/-- The same environment with the pivot missing. -/
def envNoPivot : Env :=
  { envAllGood with isExistingPivot := fun _ => false }

end PivotActions

namespace ServerDataModel

/-! ## Validation: the model reproduces every scenario of
`server_data.test.js` (step sequences, outcomes, callbacks) -/

-- test "simple synchronous get"
example :
    let r := run ormEcho
      [Action.get "partner" "get_something" [Val.int 5],
       Action.animationFrame,
       Action.get "partner" "get_something" [Val.int 5]]
    r.2 = [Outcome.notReady, Outcome.tick, Outcome.value (Val.int 5)] ∧
    r.1.steps = [StepItem.rpc "partner" "get_something" [Val.int 5],
                 StepItem.notif] := by
  decide

-- test "synchronous get which returns an error"
example :
    let r := run ormErr
      [Action.get "partner" "get_something" [Val.int 5],
       Action.animationFrame,
       Action.get "partner" "get_something" [Val.int 5]]
    r.2 = [Outcome.notReady, Outcome.tick,
           Outcome.error (Val.str "error while fetching data")] ∧
    r.1.steps = [StepItem.rpc "partner" "get_something" [Val.int 5],
                 StepItem.notif] := by
  decide

-- tests "simple async fetch" and "two identical concurrent async fetch"
example :
    let r := run ormEcho
      [Action.fetch "partner" "get_something" [Val.int 5],
       Action.fetch "partner" "get_something" [Val.int 5]]
    r.2 = [Outcome.value (Val.int 5), Outcome.value (Val.int 5)] ∧
    r.1.steps = [StepItem.rpc "partner" "get_something" [Val.int 5]] := by
  decide

-- test "async fetch which throws an error"
example :
    let r := run ormErr
      [Action.fetch "partner" "get_something" [Val.int 5],
       Action.fetch "partner" "get_something" [Val.int 5]]
    r.2 = [Outcome.error (Val.str "error while fetching data"),
           Outcome.error (Val.str "error while fetching data")] ∧
    r.1.steps = [StepItem.rpc "partner" "get_something" [Val.int 5]] := by
  decide

-- test "concurrently fetch then get the same request"
example :
    let r := run ormEcho
      [Action.fetch "partner" "get_something" [Val.int 5],
       Action.get "partner" "get_something" [Val.int 5],
       Action.animationFrame,
       Action.get "partner" "get_something" [Val.int 5]]
    r.2 = [Outcome.value (Val.int 5), Outcome.notReady, Outcome.tick,
           Outcome.value (Val.int 5)] ∧
    r.1.steps = [StepItem.rpc "partner" "get_something" [Val.int 5],
                 StepItem.rpc "partner" "get_something" [Val.int 5],
                 StepItem.notif] := by
  decide

-- test "concurrently get then fetch the same request"
-- (no animationFrame before the final get: awaiting the fetch delivers
-- the pending single-RPC outcome)
example :
    let r := run ormEcho
      [Action.get "partner" "get_something" [Val.int 5],
       Action.fetch "partner" "get_something" [Val.int 5],
       Action.get "partner" "get_something" [Val.int 5]]
    r.2 = [Outcome.notReady, Outcome.value (Val.int 5),
           Outcome.value (Val.int 5)] ∧
    r.1.steps = [StepItem.rpc "partner" "get_something" [Val.int 5],
                 StepItem.notif,
                 StepItem.rpc "partner" "get_something" [Val.int 5]] := by
  decide

-- test "concurrently get and batch get the same request"
example :
    let r := run ormEcho
      [Action.batchGet "partner" "get_something" (Val.int 5),
       Action.get "partner" "get_something" [Val.int 5],
       Action.animationFrame,
       Action.get "partner" "get_something" [Val.int 5],
       Action.batchGet "partner" "get_something" (Val.int 5)]
    r.2 = [Outcome.notReady, Outcome.notReady, Outcome.tick,
           Outcome.value (Val.int 5), Outcome.value (Val.int 5)] ∧
    r.1.steps = [StepItem.rpc "partner" "get_something" [Val.list [Val.int 5]],
                 StepItem.notif] := by
  decide

end ServerDataModel

namespace ServerDataModel

/-! ## Claim theorems: concrete scenario runs -/

/-- C1 counterexample.  The claim says a `fetch` or `get` that finds the
Slot of a fingerprint already pending attaches a waiter and issues no new
RPC, so at most one RPC is issued per fingerprint absent the batch/single
cross-path race.  The repository's own test "concurrently fetch then get
the same request" refutes this: a `fetch` followed by a synchronous `get`
of the same `(model, method, args)` triple — both on the single path, no
batch access involved — issues two RPCs for the fingerprint ("it loads the
data independently"): the two access routes keep separate caches. -/
theorem c1_counterexample_fetch_then_get_two_rpcs :
    countRpcFp ("partner", "get_something", [Val.int 5])
      (run ormEcho
        [Action.fetch "partner" "get_something" [Val.int 5],
         Action.get "partner" "get_something" [Val.int 5]]).1.steps = 2 := by
  decide

/-- C2: when the whole-batch RPC for the accumulated keys `[4, 5, 6]`
throws, the endpoint retries each request of the snapshot individually, in
accumulator order (step log: one batch RPC, then the three retries in order
4, 5, 6 — the retries are sequential, each modelled as completing before
the next is issued); each individual outcome resolves or rejects only that
request's Slot and triggers `successCallback` / `failureCallback`
respectively, so subsequent `batch.get`s return 4 and 6 and re-raise the
stored error for 5.  The second conjunct mirrors the standalone
`BatchEndpoint` test: with keys `[4, 5]` the callbacks fire as
success(4), failure(5). -/
theorem c2_batch_failure_sequential_fallback :
    (let r := run ormBatch5
      [Action.batchGet "partner" "get_something_in_batch" (Val.int 4),
       Action.batchGet "partner" "get_something_in_batch" (Val.int 5),
       Action.batchGet "partner" "get_something_in_batch" (Val.int 6),
       Action.animationFrame,
       Action.batchGet "partner" "get_something_in_batch" (Val.int 4),
       Action.batchGet "partner" "get_something_in_batch" (Val.int 5),
       Action.batchGet "partner" "get_something_in_batch" (Val.int 6)]
     r.2 = [Outcome.notReady, Outcome.notReady, Outcome.notReady, Outcome.tick,
            Outcome.value (Val.int 4),
            Outcome.error (Val.str "error while fetching data"),
            Outcome.value (Val.int 6)] ∧
     r.1.steps =
       [StepItem.rpc "partner" "get_something_in_batch"
          [Val.list [Val.int 4, Val.int 5, Val.int 6]],
        StepItem.notif,
        StepItem.rpc "partner" "get_something_in_batch" [Val.list [Val.int 4]],
        StepItem.rpc "partner" "get_something_in_batch" [Val.list [Val.int 5]],
        StepItem.rpc "partner" "get_something_in_batch" [Val.list [Val.int 6]]] ∧
     r.1.cbLog = [Cb.success (Val.int 4), Cb.failure (Val.int 5),
                  Cb.success (Val.int 6)] ∧
     lookupFp r.1.cache ("partner", "get_something_in_batch", [Val.int 5]) =
       some (SlotState.rejected (Val.str "error while fetching data"))) ∧
    (let r := run ormBatch5
      [Action.batchGet "partner" "get_something" (Val.int 4),
       Action.batchGet "partner" "get_something" (Val.int 5),
       Action.animationFrame]
     r.1.cbLog = [Cb.success (Val.int 4), Cb.failure (Val.int 5)]) := by
  decide

/-- C3 counterexample.  The claim says that once a request's RPC has
failed, no new RPC is ever issued for that fingerprint — in particular a
subsequent `fetch` returns a promise rejected with the stored error.  In
the code, rejection is sticky only per access path: after a failed
`get`-path RPC leaves the Slot rejected, a `fetch` of the same fingerprint
misses the separate fetch cache and issues a second RPC. -/
theorem c3_counterexample_fetch_after_failed_get_issues_rpc :
    (lookupFp
      (run ormErr
        [Action.get "partner" "get_something" [Val.int 5],
         Action.animationFrame]).1.cache
      ("partner", "get_something", [Val.int 5]) =
      some (SlotState.rejected (Val.str "error while fetching data"))) ∧
    countRpcFp ("partner", "get_something", [Val.int 5])
      (run ormErr
        [Action.get "partner" "get_something" [Val.int 5],
         Action.animationFrame,
         Action.fetch "partner" "get_something" [Val.int 5]]).1.steps = 2 := by
  decide

/-- C5: all `batch.get` requests for the same `(model, method)` issued
within one tick are combined into exactly one RPC whose argument is the
single accumulated key list `[keys]`; on success each key's subsequent
`batch.get` returns its positionally aligned result with no further RPC
(the step log stays fixed after the flush).  The second conjunct is the
single-item instance. -/
theorem c5_batch_accumulation_single_rpc :
    (let r := run ormEcho
      [Action.batchGet "partner" "get_something_in_batch" (Val.int 5),
       Action.batchGet "partner" "get_something_in_batch" (Val.int 6),
       Action.animationFrame,
       Action.batchGet "partner" "get_something_in_batch" (Val.int 5),
       Action.batchGet "partner" "get_something_in_batch" (Val.int 6)]
     r.2 = [Outcome.notReady, Outcome.notReady, Outcome.tick,
            Outcome.value (Val.int 5), Outcome.value (Val.int 6)] ∧
     r.1.steps =
       [StepItem.rpc "partner" "get_something_in_batch"
          [Val.list [Val.int 5, Val.int 6]],
        StepItem.notif]) ∧
    (let r := run ormEcho
      [Action.batchGet "partner" "get_something_in_batch" (Val.int 5),
       Action.animationFrame,
       Action.batchGet "partner" "get_something_in_batch" (Val.int 5)]
     r.2 = [Outcome.notReady, Outcome.tick, Outcome.value (Val.int 5)] ∧
     r.1.steps =
       [StepItem.rpc "partner" "get_something_in_batch" [Val.list [Val.int 5]],
        StepItem.notif]) := by
  decide

/-- C6 counterexample.  The claim says `whenDataStartLoading` fires on the
transition from zero pending Slots to one.  In the code the notification
is tied to RPC issuance, not to Slots turning pending: after a `batch.get`
the Slot count is already 1 with no notification logged (the repository's
batch tests show the notification step after the flush's RPC step), and
the episode's single notification then fires during a subsequent `get`,
when the pending-Slot count moves from 1 to 2 — not at the 0 → 1
transition. -/
theorem c6_counterexample_notification_not_at_slot_transition :
    (let s := (run ormEcho
      [Action.batchGet "partner" "get_something_in_batch" (Val.int 5)]).1
     pendingCount s.cache = 1 ∧ countNotif s.steps = 0) ∧
    (let s := (run ormEcho
      [Action.batchGet "partner" "get_something_in_batch" (Val.int 5),
       Action.get "res.users" "read" [Val.int 1]]).1
     pendingCount s.cache = 2 ∧ countNotif s.steps = 1) := by
  decide

/-- C9: in the cross-path race where `batch.get(model, method, k)` raises
`NotReady` and a `fetch(model, method, [k])` for the same triple is issued
before the batch flush, the fetch resolves to the value, two RPC steps are
recorded (the documented quirk), and a subsequent `batch.get` for the same
key returns the value with no further RPC. -/
theorem c9_cross_path_race_two_rpcs_then_cached :
    (run ormEcho
      [Action.batchGet "partner" "get_something" (Val.int 5),
       Action.fetch "partner" "get_something" [Val.int 5],
       Action.animationFrame,
       Action.batchGet "partner" "get_something" (Val.int 5)]).2 =
      [Outcome.notReady, Outcome.value (Val.int 5), Outcome.tick,
       Outcome.value (Val.int 5)] ∧
    (run ormEcho
      [Action.batchGet "partner" "get_something" (Val.int 5),
       Action.fetch "partner" "get_something" [Val.int 5],
       Action.animationFrame,
       Action.batchGet "partner" "get_something" (Val.int 5)]).1.steps =
      [StepItem.rpc "partner" "get_something" [Val.int 5],
       StepItem.rpc "partner" "get_something" [Val.list [Val.int 5]],
       StepItem.notif] := by
  decide

end ServerDataModel

namespace ServerDataModel

/-! ## Slot lifecycle (C7): every operation respects `pending → terminal` -/

theorem slotLe_refl : ∀ a, slotLe a a
  | none => trivial
  | some SlotState.pending => trivial
  | some (SlotState.resolved _) => rfl
  | some (SlotState.rejected _) => rfl

theorem slotLe_trans {a b c : Option SlotState}
    (hab : slotLe a b) (hbc : slotLe b c) : slotLe a c := by
  rcases a with _ | (_ | va | ea) <;>
    rcases b with _ | (_ | vb | eb) <;>
      rcases c with _ | (_ | vc | ec) <;>
        simp_all [slotLe]

theorem lookupFp_append_left {α : Type} {c : List (Fp × α)} {fp : Fp} {v : α}
    (h : lookupFp c fp = some v) (l : List (Fp × α)) :
    lookupFp (c ++ l) fp = some v := by
  induction c with
  | nil => simp [lookupFp] at h
  | cons kv t ih =>
    rcases kv with ⟨k, x⟩
    rw [List.cons_append]
    by_cases hk : k = fp
    · simp only [lookupFp, if_pos hk] at h ⊢
      exact h
    · simp only [lookupFp, if_neg hk] at h ⊢
      exact ih h

theorem cacheLe_refl (c : List (Fp × SlotState)) : cacheLe c c :=
  fun _ => slotLe_refl _

theorem cacheLe_trans {a b c : List (Fp × SlotState)}
    (h1 : cacheLe a b) (h2 : cacheLe b c) : cacheLe a c :=
  fun fp => slotLe_trans (h1 fp) (h2 fp)

theorem cacheLe_append (c l : List (Fp × SlotState)) : cacheLe c (c ++ l) := by
  intro fp
  cases h : lookupFp c fp with
  | none => trivial
  | some v => rw [lookupFp_append_left h]; exact slotLe_refl _

theorem cacheLe_terminate (c : List (Fp × SlotState)) (fp : Fp) (st : SlotState) :
    cacheLe c (terminate c fp st) := by
  intro fp'
  induction c with
  | nil => trivial
  | cons kv t ih =>
    rcases kv with ⟨k, v⟩
    simp only [terminate]
    by_cases hk : k = fp
    · rw [if_pos hk]
      simp only [lookupFp]
      by_cases hk' : k = fp'
      · rw [if_pos hk', if_pos hk']
        cases v with
        | pending => trivial
        | resolved w =>
          rw [if_neg (fun hc => SlotState.noConfusion hc)]
          exact slotLe_refl _
        | rejected e =>
          rw [if_neg (fun hc => SlotState.noConfusion hc)]
          exact slotLe_refl _
      · rw [if_neg hk', if_neg hk']
        exact slotLe_refl _
    · rw [if_neg hk]
      simp only [lookupFp]
      by_cases hk' : k = fp'
      · rw [if_pos hk', if_pos hk']
        exact slotLe_refl _
      · rw [if_neg hk', if_neg hk']
        exact ih

theorem cacheLe_foldl {β : Type} (f : SDState → β → SDState)
    (h : ∀ s x, cacheLe s.cache (f s x).cache) :
    ∀ (l : List β) (s : SDState) (c : List (Fp × SlotState)),
      cacheLe c s.cache → cacheLe c (List.foldl f s l).cache := by
  intro l
  induction l with
  | nil => intro s c hc; exact hc
  | cons x t ih =>
    intro s c hc
    exact ih (f s x) c (cacheLe_trans hc (h s x))

theorem cacheLe_applySettle (s : SDState) (item : Fp × Except Val Val) :
    cacheLe s.cache (applySettle s item).cache :=
  cacheLe_terminate _ _ _

theorem cacheLe_drainMicro (s : SDState) :
    cacheLe s.cache (drainMicro s).cache := by
  simp only [drainMicro]
  exact cacheLe_foldl applySettle cacheLe_applySettle s.micro
    { s with micro := [] } s.cache (cacheLe_refl _)

theorem cacheLe_retryOne (orm : Orm) (m f : String) (s : SDState) (k : Val) :
    cacheLe s.cache (retryOne orm m f s k).cache := by
  cases h : orm m f [Val.list [k]] with
  | ok v =>
    cases h2 : (splitResult v).head? with
    | none =>
      simp only [retryOne, h, h2]
      exact cacheLe_refl _
    | some r =>
      simp only [retryOne, h, h2, resolveFp]
      exact cacheLe_terminate _ _ _
  | error e =>
    simp only [retryOne, h, resolveFp]
    exact cacheLe_terminate _ _ _

theorem settleOp_cache (s : SDState) : (settleOp s).cache = s.cache := rfl

theorem trackOp_cache (s : SDState) : (trackOp s).cache = s.cache := rfl

theorem cacheLe_flushOne (orm : Orm) (s : SDState)
    (ep : (String × String) × List Val) :
    cacheLe s.cache (flushOne orm s ep).cache := by
  cases h : orm ep.1.1 ep.1.2 [Val.list ep.2] with
  | ok v =>
    simp only [flushOne, h]
    rw [settleOp_cache]
    refine cacheLe_foldl _ ?_ _ _ _ ?_
    · intro s kr
      exact cacheLe_terminate s.cache _ _
    · exact cacheLe_refl s.cache
  | error e =>
    simp only [flushOne, h]
    rw [settleOp_cache]
    refine cacheLe_foldl _ ?_ _ _ _ ?_
    · intro s k
      exact cacheLe_retryOne orm _ _ s k
    · exact cacheLe_refl s.cache

theorem cacheLe_doAnimationFrame (orm : Orm) (s : SDState) :
    cacheLe s.cache (doAnimationFrame orm s).cache := by
  simp only [doAnimationFrame]
  refine cacheLe_foldl _ (fun s ep => cacheLe_flushOne orm s ep) _ _ _ ?_
  exact cacheLe_drainMicro s

theorem cacheLe_doGet (orm : Orm) (s : SDState) (m f : String) (args : Args) :
    cacheLe s.cache (doGet orm s m f args).1.cache := by
  rcases h : lookupFp s.cache (m, f, args) with _ | st
  · simp only [doGet, h]
    exact cacheLe_append _ _
  · rcases st with _ | v | e <;> simp only [doGet, h] <;> exact cacheLe_refl _

theorem doFetch_cache (orm : Orm) (s : SDState) (m f : String) (args : Args) :
    (doFetch orm s m f args).1.cache = s.cache := by
  rcases h : lookupFp s.fetchCache (m, f, args) with _ | out <;> simp [doFetch, h]

theorem cacheLe_doBatchGet (s : SDState) (m f : String) (k : Val) :
    cacheLe s.cache (doBatchGet s m f k).1.cache := by
  rcases h : lookupFp s.cache (m, f, [k]) with _ | st
  · simp only [doBatchGet, h]
    exact cacheLe_append _ _
  · rcases st with _ | v | e <;> simp only [doBatchGet, h] <;> exact cacheLe_refl _

theorem cacheLe_stepA (orm : Orm) (s : SDState) (a : Action) :
    cacheLe s.cache (stepA orm s a).1.cache := by
  cases a with
  | get m f args => exact cacheLe_doGet orm s m f args
  | fetch m f args =>
    simp only [stepA]
    refine cacheLe_trans ?_ (cacheLe_drainMicro (doFetch orm s m f args).1)
    rw [doFetch_cache]
    exact cacheLe_refl _
  | batchGet m f k => exact cacheLe_doBatchGet s m f k
  | animationFrame => exact cacheLe_doAnimationFrame orm s

theorem cacheLe_runFrom (orm : Orm) :
    ∀ (p : List Action) (s : SDState), cacheLe s.cache (runFrom orm s p).1.cache := by
  intro p
  induction p with
  | nil => intro s; exact cacheLe_refl _
  | cons a t ih =>
    intro s
    simp only [runFrom]
    exact cacheLe_trans (cacheLe_stepA orm s a) (ih (stepA orm s a).1)

theorem runFrom_append_fst (orm : Orm) :
    ∀ (p q : List Action) (s : SDState),
      (runFrom orm s (p ++ q)).1 = (runFrom orm (runFrom orm s p).1 q).1 := by
  intro p
  induction p with
  | nil => intro q s; rfl
  | cons a t ih =>
    intro q s
    simp only [List.cons_append, runFrom]
    exact ih q _

/-- C7: for every program and every extension of it, each Slot's observed
state only ever moves forward along `absent → pending → (resolved |
rejected)`: a Slot is created `pending`, transitions at most once to a
terminal state, and once terminal keeps its first terminal value — later
resolves or rejects (e.g. from a duplicate cross-path RPC) are no-ops, so
every subsequent `get` sees the first terminal value. -/
theorem c7_slot_lifecycle_monotone (orm : Orm) (p q : List Action) :
    cacheLe (run orm p).1.cache (run orm (p ++ q)).1.cache := by
  unfold run
  rw [runFrom_append_fst]
  exact cacheLe_runFrom orm q _

end ServerDataModel

namespace ServerDataModel

/-! ## Loading episodes (C6): notifications count episode starts -/

theorem countNotif_append (l₁ l₂ : List StepItem) :
    countNotif (l₁ ++ l₂) = countNotif l₁ + countNotif l₂ := by
  induction l₁ with
  | nil => simp [countNotif]
  | cons x t ih =>
    cases x with
    | rpc m f args => simp [countNotif, ih]
    | notif => simp [countNotif, ih]; omega

theorem epScan_append (l₁ l₂ : List Bool) :
    ∀ c n, epScan c n (l₁ ++ l₂) =
      epScan (epScan c n l₁).1 (epScan c n l₁).2 l₂ := by
  induction l₁ with
  | nil => intro c n; rfl
  | cons b t ih =>
    intro c n
    cases b with
    | false => simp only [List.cons_append, epScan]; exact ih _ _
    | true => simp only [List.cons_append, epScan]; exact ih _ _

theorem bal_append_true (tr : List Bool) : bal (tr ++ [true]) = bal tr + 1 := by
  simp [bal, epScan_append, epScan]

theorem upCross_append_true (tr : List Bool) :
    upCross (tr ++ [true]) =
      if bal tr = 0 then upCross tr + 1 else upCross tr := by
  simp [upCross, bal, epScan_append, epScan]

theorem bal_append_false (tr : List Bool) : bal (tr ++ [false]) = bal tr - 1 := by
  simp [bal, epScan_append, epScan]

theorem upCross_append_false (tr : List Bool) :
    upCross (tr ++ [false]) = upCross tr := by
  simp [upCross, epScan_append, epScan]

theorem epInv_trackOp {s : SDState} (h : EpInv s) : EpInv (trackOp s) := by
  obtain ⟨h1, h2⟩ := h
  constructor
  · show countNotif (if s.pendingOps = 0 then s.steps ++ [StepItem.notif] else s.steps) =
      upCross (s.epTrace ++ [true])
    rw [upCross_append_true, ← h2]
    by_cases hp : s.pendingOps = 0
    · rw [if_pos hp, if_pos hp, countNotif_append, h1]
      rfl
    · rw [if_neg hp, if_neg hp]
      exact h1
  · show s.pendingOps + 1 = bal (s.epTrace ++ [true])
    rw [bal_append_true, h2]

theorem epInv_settleOp {s : SDState} (h : EpInv s) : EpInv (settleOp s) := by
  obtain ⟨h1, h2⟩ := h
  constructor
  · show countNotif s.steps = upCross (s.epTrace ++ [false])
    rw [upCross_append_false]
    exact h1
  · show s.pendingOps - 1 = bal (s.epTrace ++ [false])
    rw [bal_append_false, h2]

theorem epInv_stepsRpc {s : SDState} (h : EpInv s) (m f : String) (args : Args) :
    EpInv { s with steps := s.steps ++ [StepItem.rpc m f args] } := by
  obtain ⟨h1, h2⟩ := h
  refine ⟨?_, h2⟩
  show countNotif (s.steps ++ [StepItem.rpc m f args]) = upCross s.epTrace
  rw [countNotif_append]
  simpa [countNotif] using h1

theorem epInv_foldl {β : Type} (f : SDState → β → SDState)
    (h : ∀ s x, EpInv s → EpInv (f s x)) :
    ∀ (l : List β) (s : SDState), EpInv s → EpInv (List.foldl f s l) := by
  intro l
  induction l with
  | nil => intro s hs; exact hs
  | cons x t ih => intro s hs; exact ih (f s x) (h s x hs)

theorem epInv_applySettle {s : SDState} (h : EpInv s)
    (item : Fp × Except Val Val) : EpInv (applySettle s item) :=
  epInv_settleOp h

theorem epInv_drainMicro {s : SDState} (h : EpInv s) : EpInv (drainMicro s) := by
  simp only [drainMicro]
  exact epInv_foldl applySettle (fun s x hs => epInv_applySettle hs x) s.micro
    { s with micro := [] } h

theorem epInv_retryOne {s : SDState} (h : EpInv s) (orm : Orm) (m f : String)
    (k : Val) : EpInv (retryOne orm m f s k) := by
  cases ho : orm m f [Val.list [k]] with
  | ok v =>
    cases h2 : (splitResult v).head? with
    | none =>
      simp only [retryOne, ho, h2]
      exact epInv_stepsRpc h m f [Val.list [k]]
    | some r =>
      simp only [retryOne, ho, h2]
      exact epInv_stepsRpc h m f [Val.list [k]]
  | error e =>
    simp only [retryOne, ho]
    exact epInv_stepsRpc h m f [Val.list [k]]

theorem epInv_flushOne {s : SDState} (h : EpInv s) (orm : Orm)
    (ep : (String × String) × List Val) : EpInv (flushOne orm s ep) := by
  cases ho : orm ep.1.1 ep.1.2 [Val.list ep.2] with
  | ok v =>
    simp only [flushOne, ho]
    apply epInv_settleOp
    refine epInv_foldl _ ?_ _ _ (epInv_trackOp (epInv_stepsRpc h _ _ _))
    intro s kr hs
    exact hs
  | error e =>
    simp only [flushOne, ho]
    apply epInv_settleOp
    refine epInv_foldl _ ?_ _ _ (epInv_trackOp (epInv_stepsRpc h _ _ _))
    intro s k hs
    exact epInv_retryOne hs orm _ _ k

theorem epInv_doAnimationFrame {s : SDState} (h : EpInv s) (orm : Orm) :
    EpInv (doAnimationFrame orm s) := by
  simp only [doAnimationFrame]
  refine epInv_foldl _ ?_ _ _ (epInv_drainMicro h)
  intro s ep hs
  exact epInv_flushOne hs orm ep

theorem epInv_doGet {s : SDState} (h : EpInv s) (orm : Orm) (m f : String)
    (args : Args) : EpInv (doGet orm s m f args).1 := by
  cases hl : lookupFp s.cache (m, f, args) with
  | none =>
    simp only [doGet, hl]
    exact epInv_trackOp (epInv_stepsRpc h m f args)
  | some st =>
    rcases st with _ | v | e <;> simp only [doGet, hl] <;> exact h

theorem epInv_doFetch {s : SDState} (h : EpInv s) (orm : Orm) (m f : String)
    (args : Args) : EpInv (doFetch orm s m f args).1 := by
  cases hl : lookupFp s.fetchCache (m, f, args) with
  | none =>
    simp only [doFetch, hl]
    exact epInv_stepsRpc h m f args
  | some out =>
    simp only [doFetch, hl]
    exact h

theorem epInv_doBatchGet {s : SDState} (h : EpInv s) (m f : String) (k : Val) :
    EpInv (doBatchGet s m f k).1 := by
  cases hl : lookupFp s.cache (m, f, [k]) with
  | none =>
    simp only [doBatchGet, hl]
    exact h
  | some st =>
    rcases st with _ | v | e <;> simp only [doBatchGet, hl] <;> exact h

theorem epInv_stepA {s : SDState} (h : EpInv s) (orm : Orm) (a : Action) :
    EpInv (stepA orm s a).1 := by
  cases a with
  | get m f args => exact epInv_doGet h orm m f args
  | fetch m f args =>
    simp only [stepA]
    exact epInv_drainMicro (epInv_doFetch h orm m f args)
  | batchGet m f k => exact epInv_doBatchGet h m f k
  | animationFrame => exact epInv_doAnimationFrame h orm

theorem epInv_runFrom (orm : Orm) :
    ∀ (p : List Action) (s : SDState), EpInv s → EpInv (runFrom orm s p).1 := by
  intro p
  induction p with
  | nil => intro s hs; exact hs
  | cons a t ih =>
    intro s hs
    simp only [runFrom]
    exact ih (stepA orm s a).1 (epInv_stepA hs orm a)

/-- C6 amended: `whenDataStartLoading` fires exactly once per loading
episode as the code measures episodes — by in-flight tracked RPC
operations (single-path get RPCs and batch flushes), not by Slots in the
`pending` state.  For every program, the number of notifications in the
step log equals `upCross` of the tracker trace: the number of tracked
operations that started while none was in flight, i.e. the number of
episodes begun; and the in-flight counter equals the trace balance.  In
particular a second notification can only occur after the in-flight count
has returned to zero.  (For batch requests the notification fires at flush
time, after the batch RPC is issued — not when the Slot first turns
pending; see the C6 counterexample.) -/
theorem c6_amended_notification_once_per_episode (orm : Orm) (p : List Action) :
    countNotif (run orm p).1.steps = upCross (run orm p).1.epTrace ∧
    (run orm p).1.pendingOps = bal (run orm p).1.epTrace := by
  have h0 : EpInv initState := ⟨rfl, rfl⟩
  exact epInv_runFrom orm p initState h0

end ServerDataModel

namespace ServerDataModel

/-! ## Per-path RPC uniqueness (C1 amended) -/

theorem countFp_append (fp : Fp) (l₁ l₂ : List Fp) :
    countFp fp (l₁ ++ l₂) = countFp fp l₁ + countFp fp l₂ := by
  induction l₁ with
  | nil => simp [countFp]
  | cons x t ih => simp [countFp, ih]; omega

theorem lookupFp_append_none {α : Type} {c l : List (Fp × α)} {fp : Fp}
    (h : lookupFp (c ++ l) fp = none) : lookupFp c fp = none := by
  induction c with
  | nil => rfl
  | cons kv t ih =>
    rcases kv with ⟨k, x⟩
    rw [List.cons_append] at h
    by_cases hk : k = fp
    · simp only [lookupFp, if_pos hk] at h
      exact Option.noConfusion h
    · simp only [lookupFp, if_neg hk] at h ⊢
      exact ih h

theorem lookupFp_append_self_ne_none {α : Type} (c : List (Fp × α)) (fp : Fp)
    (x : α) : lookupFp (c ++ [(fp, x)]) fp ≠ none := by
  induction c with
  | nil => simp [lookupFp]
  | cons kv t ih =>
    rcases kv with ⟨k, y⟩
    rw [List.cons_append]
    by_cases hk : k = fp
    · simp [lookupFp, if_pos hk]
    · simp only [lookupFp, if_neg hk]
      exact ih

theorem lookupFp_terminate_none {c : List (Fp × SlotState)} {fp : Fp}
    {st : SlotState} {fp' : Fp}
    (h : lookupFp (terminate c fp st) fp' = none) : lookupFp c fp' = none := by
  induction c with
  | nil => rfl
  | cons kv t ih =>
    rcases kv with ⟨k, v⟩
    simp only [terminate] at h
    by_cases hk : k = fp
    · rw [if_pos hk] at h
      by_cases hk' : k = fp'
      · simp only [lookupFp, if_pos hk'] at h
        exact Option.noConfusion h
      · simp only [lookupFp, if_neg hk'] at h ⊢
        exact h
    · rw [if_neg hk] at h
      by_cases hk' : k = fp'
      · simp only [lookupFp, if_pos hk'] at h
        exact Option.noConfusion h
      · simp only [lookupFp, if_neg hk'] at h ⊢
        exact ih h

theorem pathInv_mono_cache {α β : Type} {r : List Fp} {c : List (Fp × α)}
    {c' : List (Fp × β)} (h : PathInv r c)
    (hmono : ∀ fp, lookupFp c' fp = none → lookupFp c fp = none) :
    PathInv r c' :=
  fun fp => ⟨fun hn => (h fp).1 (hmono fp hn), (h fp).2⟩

theorem pathInv_insert {α : Type} {r : List Fp} {c : List (Fp × α)} {fp : Fp}
    (x : α) (h : PathInv r c) (hfp : lookupFp c fp = none) :
    PathInv (r ++ [fp]) (c ++ [(fp, x)]) := by
  intro fp'
  by_cases he : fp' = fp
  · subst he
    constructor
    · intro hn
      exact absurd hn (lookupFp_append_self_ne_none c fp' x)
    · rw [countFp_append, (h fp').1 hfp]
      simp [countFp]
  · have hne : ¬(fp = fp') := fun hc => he hc.symm
    constructor
    · intro hn
      rw [countFp_append, (h fp').1 (lookupFp_append_none hn)]
      simp [countFp, hne]
    · rw [countFp_append]
      have h2 := (h fp').2
      have h3 : countFp fp' [fp] = 0 := by simp [countFp, hne]
      omega

theorem rpcInv_resolveFp {s : SDState} (h : RpcInv s) (fp : Fp)
    (out : Except Val Val) : RpcInv (resolveFp s fp out) :=
  ⟨pathInv_mono_cache h.1 (fun _ hn => lookupFp_terminate_none hn), h.2⟩

theorem rpcInv_foldl {β : Type} (f : SDState → β → SDState)
    (h : ∀ s x, RpcInv s → RpcInv (f s x)) :
    ∀ (l : List β) (s : SDState), RpcInv s → RpcInv (List.foldl f s l) := by
  intro l
  induction l with
  | nil => intro s hs; exact hs
  | cons x t ih => intro s hs; exact ih (f s x) (h s x hs)

theorem rpcInv_drainMicro {s : SDState} (h : RpcInv s) : RpcInv (drainMicro s) := by
  simp only [drainMicro]
  refine rpcInv_foldl _ ?_ _ _ h
  intro s item hs
  exact rpcInv_resolveFp hs item.1 item.2

theorem rpcInv_retryOne {s : SDState} (h : RpcInv s) (orm : Orm) (m f : String)
    (k : Val) : RpcInv (retryOne orm m f s k) := by
  cases ho : orm m f [Val.list [k]] with
  | ok v =>
    cases h2 : (splitResult v).head? with
    | none => simp only [retryOne, ho, h2]; exact h
    | some r =>
      simp only [retryOne, ho, h2]
      exact rpcInv_resolveFp h (m, f, [k]) (Except.ok r)
  | error e =>
    simp only [retryOne, ho]
    exact rpcInv_resolveFp h (m, f, [k]) (Except.error e)

theorem rpcInv_flushOne {s : SDState} (h : RpcInv s) (orm : Orm)
    (ep : (String × String) × List Val) : RpcInv (flushOne orm s ep) := by
  cases ho : orm ep.1.1 ep.1.2 [Val.list ep.2] with
  | ok v =>
    simp only [flushOne, ho]
    refine rpcInv_foldl _ ?_ _ _ h
    intro s kr hs
    exact rpcInv_resolveFp hs (ep.1.1, ep.1.2, [kr.1]) (Except.ok kr.2)
  | error e =>
    simp only [flushOne, ho]
    refine rpcInv_foldl _ ?_ _ _ h
    intro s k hs
    exact rpcInv_retryOne hs orm _ _ k

theorem rpcInv_doAnimationFrame {s : SDState} (h : RpcInv s) (orm : Orm) :
    RpcInv (doAnimationFrame orm s) := by
  simp only [doAnimationFrame]
  refine rpcInv_foldl _ ?_ _ _ (rpcInv_drainMicro h)
  intro s ep hs
  exact rpcInv_flushOne hs orm ep

theorem rpcInv_doGet {s : SDState} (h : RpcInv s) (orm : Orm) (m f : String)
    (args : Args) : RpcInv (doGet orm s m f args).1 := by
  cases hl : lookupFp s.cache (m, f, args) with
  | none =>
    simp only [doGet, hl]
    exact ⟨pathInv_insert _ h.1 hl, h.2⟩
  | some st =>
    rcases st with _ | v | e <;> simp only [doGet, hl] <;> exact h

theorem rpcInv_doFetch {s : SDState} (h : RpcInv s) (orm : Orm) (m f : String)
    (args : Args) : RpcInv (doFetch orm s m f args).1 := by
  cases hl : lookupFp s.fetchCache (m, f, args) with
  | none =>
    simp only [doFetch, hl]
    exact ⟨h.1, pathInv_insert _ h.2 hl⟩
  | some out =>
    simp only [doFetch, hl]
    exact h

theorem rpcInv_doBatchGet {s : SDState} (h : RpcInv s) (m f : String) (k : Val) :
    RpcInv (doBatchGet s m f k).1 := by
  cases hl : lookupFp s.cache (m, f, [k]) with
  | none =>
    simp only [doBatchGet, hl]
    refine ⟨pathInv_mono_cache h.1 (fun _ hn => lookupFp_append_none hn), h.2⟩
  | some st =>
    rcases st with _ | v | e <;> simp only [doBatchGet, hl] <;> exact h

theorem rpcInv_stepA {s : SDState} (h : RpcInv s) (orm : Orm) (a : Action) :
    RpcInv (stepA orm s a).1 := by
  cases a with
  | get m f args => exact rpcInv_doGet h orm m f args
  | fetch m f args =>
    simp only [stepA]
    exact rpcInv_drainMicro (rpcInv_doFetch h orm m f args)
  | batchGet m f k => exact rpcInv_doBatchGet h m f k
  | animationFrame => exact rpcInv_doAnimationFrame h orm

theorem rpcInv_runFrom (orm : Orm) :
    ∀ (p : List Action) (s : SDState), RpcInv s → RpcInv (runFrom orm s p).1 := by
  intro p
  induction p with
  | nil => intro s hs; exact hs
  | cons a t ih =>
    intro s hs
    simp only [runFrom]
    exact ih (stepA orm s a).1 (rpcInv_stepA hs orm a)

/-- C1 amended: the at-most-one-RPC-per-fingerprint guarantee holds per
access route, not globally.  For every program and every fingerprint, the
single synchronous-`get` path issues at most one RPC for the fingerprint
(a `get` or `batch.get` that finds the Slot pending or terminal issues
none), and the `fetch` path issues at most one (a `fetch` that finds an
earlier fetch's promise attaches to it).  The two routes keep separate
caches, however, so a `get` concurrent with a `fetch` of the same triple
issues a second RPC (see the C1 counterexample) — duplication across
routes is not limited to the batch/single cross-path race of §4.5. -/
theorem c1_amended_each_path_at_most_one_rpc (orm : Orm) (p : List Action)
    (fp : Fp) :
    countFp fp (run orm p).1.singleRpcFps ≤ 1 ∧
    countFp fp (run orm p).1.fetchRpcFps ≤ 1 := by
  have h0 : RpcInv initState := by
    constructor <;> intro fp' <;> exact ⟨fun _ => rfl, by simp [countFp]⟩
  have h := rpcInv_runFrom orm p initState h0
  exact ⟨(h.1 fp).2, (h.2 fp).2⟩

end ServerDataModel

namespace ServerDataModel

/-! ## Sticky rejection per path (C3 amended) and single-get round trip (C4) -/

theorem foldl_applySettle_steps :
    ∀ (l : List (Fp × Except Val Val)) (s : SDState),
      (List.foldl applySettle s l).steps = s.steps := by
  intro l
  induction l with
  | nil => intro s; rfl
  | cons x t ih => intro s; rw [List.foldl_cons, ih]; rfl

theorem drainMicro_steps (s : SDState) : (drainMicro s).steps = s.steps :=
  foldl_applySettle_steps s.micro { s with micro := [] }

/-- C3 amended: rejection is sticky per access path.  If the Slot of a
fingerprint is `rejected e`, a synchronous `get` returns the stored error
and leaves the state completely unchanged (no new RPC); if the fetch cache
of the fingerprint holds `error e`, a `fetch` re-rejects with the same
stored error and appends no step (no new RPC).  (Across paths stickiness
does not hold: a `fetch` after a failed `get`-path RPC issues its own RPC
— see the C3 counterexample.) -/
theorem c3_amended_rejection_sticky_per_path (orm : Orm) (s : SDState)
    (m f : String) (args : Args) (e : Val) :
    (lookupFp s.cache (m, f, args) = some (SlotState.rejected e) →
      stepA orm s (Action.get m f args) = (s, Outcome.error e)) ∧
    (lookupFp s.fetchCache (m, f, args) = some (Except.error e) →
      (stepA orm s (Action.fetch m f args)).2 = Outcome.error e ∧
      (stepA orm s (Action.fetch m f args)).1.steps = s.steps) := by
  constructor
  · intro h
    simp only [stepA, doGet, h]
  · intro h
    refine ⟨?_, ?_⟩
    · simp only [stepA, doFetch, h]
    · simp only [stepA, doFetch, h]
      exact drainMicro_steps s

/-- Witness for the amended C3 at the tests' concrete inputs: after the
failed `get`-path RPC of "synchronous get which returns an error", a
further `get` re-raises the stored error without any state change, and
after the failed fetch of "async fetch which throws an error", a further
`fetch` re-rejects with the stored error and logs no RPC step. -/
theorem c3_amended_rejection_sticky_per_path_witness :
    (stepA ormErr
        (run ormErr [Action.get "partner" "get_something" [Val.int 5],
                     Action.animationFrame]).1
        (Action.get "partner" "get_something" [Val.int 5]) =
      ((run ormErr [Action.get "partner" "get_something" [Val.int 5],
                    Action.animationFrame]).1,
       Outcome.error (Val.str "error while fetching data"))) ∧
    ((stepA ormErr
        (run ormErr [Action.fetch "partner" "get_something" [Val.int 5]]).1
        (Action.fetch "partner" "get_something" [Val.int 5])).2 =
      Outcome.error (Val.str "error while fetching data") ∧
     (stepA ormErr
        (run ormErr [Action.fetch "partner" "get_something" [Val.int 5]]).1
        (Action.fetch "partner" "get_something" [Val.int 5])).1.steps =
      (run ormErr [Action.fetch "partner" "get_something" [Val.int 5]]).1.steps) :=
  ⟨(c3_amended_rejection_sticky_per_path ormErr
      (run ormErr [Action.get "partner" "get_something" [Val.int 5],
                   Action.animationFrame]).1
      "partner" "get_something" [Val.int 5]
      (Val.str "error while fetching data")).1 (by decide),
   (c3_amended_rejection_sticky_per_path ormErr
      (run ormErr [Action.fetch "partner" "get_something" [Val.int 5]]).1
      "partner" "get_something" [Val.int 5]
      (Val.str "error while fetching data")).2 (by decide)⟩

/-- C4: for a triple with no cache entry whose RPC succeeds with `v`, a
synchronous `get` raises `NotReady` and leaves exactly one RPC step for
the triple followed by one loading notification, in that order; after the
tick delivers the outcome, a further `get` for the same triple returns `v`
and the step log is unchanged (no further RPC). -/
theorem c4_sync_get_then_ready (orm : Orm) (m f : String) (args : Args)
    (v : Val) (h : orm m f args = Except.ok v) :
    (run orm [Action.get m f args, Action.animationFrame,
              Action.get m f args]).2 =
      [Outcome.notReady, Outcome.tick, Outcome.value v] ∧
    (run orm [Action.get m f args, Action.animationFrame,
              Action.get m f args]).1.steps =
      [StepItem.rpc m f args, StepItem.notif] := by
  simp [run, runFrom, stepA, doGet, initState, lookupFp, h, trackOp,
    doAnimationFrame, drainMicro, applySettle, settleOp, resolveFp, terminate]

/-- Witness for C4 at the test's concrete input. -/
theorem c4_sync_get_then_ready_witness :
    (run ormEcho [Action.get "partner" "get_something" [Val.int 5],
                  Action.animationFrame,
                  Action.get "partner" "get_something" [Val.int 5]]).2 =
      [Outcome.notReady, Outcome.tick, Outcome.value (Val.int 5)] ∧
    (run ormEcho [Action.get "partner" "get_something" [Val.int 5],
                  Action.animationFrame,
                  Action.get "partner" "get_something" [Val.int 5]]).1.steps =
      [StepItem.rpc "partner" "get_something" [Val.int 5], StepItem.notif] :=
  c4_sync_get_then_ready ormEcho "partner" "get_something" [Val.int 5]
    (Val.int 5) rfl

/-- C8: two concurrent `fetch` calls for the same `(model, method, args)`
triple both resolve to the RPC's value while exactly one RPC step is
recorded: the second fetch finds the first one's cached promise and
attaches to it. -/
theorem c8_concurrent_fetch_dedup (orm : Orm) (m f : String) (args : Args)
    (v : Val) (h : orm m f args = Except.ok v) :
    (run orm [Action.fetch m f args, Action.fetch m f args]).2 =
      [Outcome.value v, Outcome.value v] ∧
    (run orm [Action.fetch m f args, Action.fetch m f args]).1.steps =
      [StepItem.rpc m f args] := by
  simp [run, runFrom, stepA, doFetch, initState, lookupFp, h, drainMicro]

/-- Witness for C8 at the test's concrete input. -/
theorem c8_concurrent_fetch_dedup_witness :
    (run ormEcho [Action.fetch "partner" "get_something" [Val.int 5],
                  Action.fetch "partner" "get_something" [Val.int 5]]).2 =
      [Outcome.value (Val.int 5), Outcome.value (Val.int 5)] ∧
    (run ormEcho [Action.fetch "partner" "get_something" [Val.int 5],
                  Action.fetch "partner" "get_something" [Val.int 5]]).1.steps =
      [StepItem.rpc "partner" "get_something" [Val.int 5]] :=
  c8_concurrent_fetch_dedup ormEcho "partner" "get_something" [Val.int 5]
    (Val.int 5) rfl

end ServerDataModel

namespace PivotActions

open ServerDataModel (Val)

/-- C10: `SET_FILTER_MATCHING_CONDITION(position, env)` returns true only
if `SEE_RECORDS_PIVOT_VISIBLE(position, env)` is true, the position's
pivot domain args are defined, the position is a header, and at least one
filter matches those args; and whenever `SEE_RECORDS_PIVOT_VISIBLE` is
false — in particular when the pivot id at the position does not exist —
`SET_FILTER_MATCHING_CONDITION` returns false. -/
theorem c10_set_filter_matching_condition (pos : Nat) (env : Env) :
    (SET_FILTER_MATCHING_CONDITION pos env = true →
      SEE_RECORDS_PIVOT_VISIBLE pos env = true ∧
      ∃ info, env.getPivotDomainArgsFromPosition pos = some info ∧
        info.domainArgs.isSome = true ∧ info.isHeader = true ∧
        0 < (env.getFiltersMatchingPivotArgs (env.getPivotIdFromPosition pos)
          info.domainArgs).length) ∧
    (SEE_RECORDS_PIVOT_VISIBLE pos env = false →
      SET_FILTER_MATCHING_CONDITION pos env = false) ∧
    (env.isExistingPivot (env.getPivotIdFromPosition pos) = false →
      SET_FILTER_MATCHING_CONDITION pos env = false) := by
  refine ⟨?_, ?_, ?_⟩
  · intro h
    cases hv : SEE_RECORDS_PIVOT_VISIBLE pos env with
    | false => simp [SET_FILTER_MATCHING_CONDITION, hv] at h
    | true =>
      refine ⟨rfl, ?_⟩
      simp only [SET_FILTER_MATCHING_CONDITION, hv, Bool.not_true,
        Bool.false_eq_true, if_false] at h
      cases hi : env.getPivotDomainArgsFromPosition pos with
      | none =>
        simp only [hi] at h
        exact Bool.noConfusion h
      | some info =>
        simp only [hi] at h
        cases hd : info.domainArgs with
        | none =>
          simp only [hd] at h
          exact Bool.noConfusion h
        | some d =>
          simp only [hd] at h
          rw [Bool.and_eq_true, decide_eq_true_eq] at h
          refine ⟨info, rfl, ?_, h.1, ?_⟩
          · rw [hd]; rfl
          · rw [hd]; exact h.2
  · intro hv
    simp [SET_FILTER_MATCHING_CONDITION, hv]
  · intro hne
    have hv : SEE_RECORDS_PIVOT_VISIBLE pos env = false := by
      simp [SEE_RECORDS_PIVOT_VISIBLE, hne]
    simp [SET_FILTER_MATCHING_CONDITION, hv]

/-- Witness for C10: at position 0 of `envAllGood` the condition is true
and the theorem yields visibility, defined domain args, headerness and a
matching filter; at `envNoPivot` the pivot does not exist and both the
visibility-false and pivot-missing implications give a false condition. -/
theorem c10_set_filter_matching_condition_witness :
    (SEE_RECORDS_PIVOT_VISIBLE 0 envAllGood = true ∧
     ∃ info, envAllGood.getPivotDomainArgsFromPosition 0 = some info ∧
       info.domainArgs.isSome = true ∧ info.isHeader = true ∧
       0 < (envAllGood.getFiltersMatchingPivotArgs
         (envAllGood.getPivotIdFromPosition 0) info.domainArgs).length) ∧
    SET_FILTER_MATCHING_CONDITION 0 envNoPivot = false ∧
    SET_FILTER_MATCHING_CONDITION 0 envNoPivot = false :=
  ⟨(c10_set_filter_matching_condition 0 envAllGood).1 (by decide),
   (c10_set_filter_matching_condition 0 envNoPivot).2.1 (by decide),
   (c10_set_filter_matching_condition 0 envNoPivot).2.2 (by decide)⟩

end PivotActions
